import Mathlib

/-! Verification of the AI-Powered Interview Training Voice Bot.

The repository is a React frontend.  Pure logic from the source files is
embedded shallowly: JavaScript strings become `List Char`, React component
state becomes explicit record types, event handlers become state-transition
functions, and the asynchronous backend / extraction calls become explicit
`Except` parameters supplied by the environment.  Components that the
specification describes but whose implementation is not part of the
checked-in sources (the chunker and the backend interview engine) are
modelled from the specification text and marked as such in their doc
comments.
-/

namespace InterviewBot

/-- Whitespace predicate used to model the JavaScript regex class matching
whitespace characters together with `String.prototype.trim`. -/
def isWs (c : Char) : Bool :=
  c = ' ' || c = '\t' || c = '\n' || c = '\r' || c = '\x0b' || c = '\x0c'

/-- Model of JavaScript `String.prototype.trim`: drop whitespace from both
ends of the character list. -/
def trim (l : List Char) : List Char :=
  ((l.dropWhile isWs).reverse.dropWhile isWs).reverse

/-- Helper for `cleanText`: collapse every maximal run of whitespace into a
single space, mirroring the replacement of a whitespace-run regex by a
single space.  `prevWs` records whether the previous character was
whitespace. -/
def collapseWsAux (prevWs : Bool) : List Char → List Char
  | [] => []
  | c :: rest =>
    if isWs c then
      if prevWs then collapseWsAux true rest
      else ' ' :: collapseWsAux true rest
    else c :: collapseWsAux false rest

/-- Function `cleanText` from `src/unnamed/part_007` line 5: replace each whitespace
run by one space, then trim. -/
def cleanText (text : List Char) : List Char :=
  trim (collapseWsAux false text)

/-- Model of JavaScript `String.prototype.toLowerCase` over the embedded
character list. -/
def lowerList (l : List Char) : List Char :=
  l.map Char.toLower

/-- Model of JavaScript `String.prototype.includes`: `includesSub needle hay`
is true when `needle` occurs contiguously inside `hay`. -/
def includesSub (needle : List Char) : List Char → Bool
  | [] => needle.isEmpty
  | c :: rest => needle.isPrefixOf (c :: rest) || includesSub needle rest

/-- The keyword-to-question table from `src/unnamed/part_007` lines 7-16. -/
def keywordQuestions : List (List Char × List Char) :=
  [(("react".toList), ("Walk me through a React project you shipped and your specific contributions.".toList)),
   (("node".toList), ("Describe how you would design a resilient Node.js API for this role.".toList)),
   (("python".toList), ("What Python libraries would you choose for this job and why?".toList)),
   (("ml".toList), ("How would you apply machine learning to the requirements you read?".toList)),
   (("data".toList), ("Tell me about a data pipeline you built and how you validated data quality.".toList)),
   (("cloud".toList), ("Explain how you would deploy this product securely in the cloud.".toList)),
   (("lead".toList), ("Share a time you led a team through ambiguity for a delivery.".toList)),
   (("design".toList), ("How do you approach designing user experiences for this problem space?".toList))]

/-- The three base questions from `src/unnamed/part_007` lines 19-23. -/
def baseQuestions : List (List Char) :=
  [("Give me a 60-second overview of why you fit this role.".toList),
   ("Tell me about a challenging situation from the job description that you have handled before.".toList),
   ("How would you measure success in this role in the first 90 days?".toList)]

/-- The stakeholder question added for long texts, `src/unnamed/part_007`
line 33. -/
def stakeholderQuestion : List Char :=
  "How will you align stakeholders with competing priorities?".toList

/-- Model of inserting into a JavaScript `Set`: insertion order is kept and
an element already present is not added again. -/
def addIfAbsent (l : List (List Char)) (x : List Char) : List (List Char) :=
  if x ∈ l then l else l ++ [x]

/-- Function `deriveQuestions` from `src/unnamed/part_007` lines 18-37: seed a set
with the three base questions, add the prompt of every keyword found in the
normalized text, add the stakeholder question for long texts missing the
word stakeholder, and keep at most the first 8 entries. -/
def deriveQuestions (text : List Char) : List (List Char) :=
  let normalized := lowerList (cleanText text)
  let picks0 := baseQuestions.foldl addIfAbsent []
  let picks1 := keywordQuestions.foldl
    (fun acc kp => if includesSub kp.1 normalized then addIfAbsent acc kp.2 else acc) picks0
  let picks2 :=
    if 600 < (cleanText text).length && !(includesSub ("stakeholder".toList) normalized) then
      addIfAbsent picks1 stakeholderQuestion
    else picks1
  picks2.take 8

/-- Function `summarize` from `src/unnamed/part_007` lines 39-44: clean the text,
return it unchanged when short, otherwise keep the first 420 characters and
append three dots. -/
def summarize (text : List Char) : List Char :=
  let snippet := cleanText text
  if snippet.isEmpty then []
  else if snippet.length ≤ 420 then snippet
  else snippet.take 420 ++ ("...".toList)

/-- One captured question/answer pair, as produced by the voice interview
page (`src/unnamed/part_002`) and consumed by the feedback page
(`src/unnamed/part_003`). -/
structure QA where
  question : List Char
  answer : List Char
deriving DecidableEq

/-- Word-character predicate modelling the word class of JavaScript regular
expressions (letters, digits and underscore), used for word boundaries. -/
def isWordChar (c : Char) : Bool :=
  c.isAlphanum || c = '_'

/-- Helper for `countWords`: count maximal runs of non-whitespace
characters, which is what splitting on whitespace runs and dropping empty
pieces yields.  `inWord` records whether the previous character belonged to
a word. -/
def countWordsAux (inWord : Bool) : List Char → Nat
  | [] => 0
  | c :: rest =>
    if isWs c then countWordsAux false rest
    else (if inWord then 0 else 1) + countWordsAux true rest

/-- Model of splitting on whitespace and counting the non-empty pieces,
`src/unnamed/part_003` line 8. -/
def countWords (text : List Char) : Nat :=
  countWordsAux false text

/-- Whether `token` matches at the current scan position: the previous
character (if any) is not a word character, the token is a literal prefix
of the remaining text, and the character following the match (if any) is
not a word character.  This models a global regex search for the token
between word boundaries. -/
def tokenMatchHere (prev : Option Char) (text token : List Char) : Bool :=
  (match prev with
   | none => true
   | some p => !isWordChar p) &&
  token.isPrefixOf text &&
  (match (text.drop token.length).head? with
   | none => true
   | some c => !isWordChar c)

/-- Fuel-driven scanner counting non-overlapping left-to-right matches of
`token` in the text, resuming after each match, as a global regex match
does.  The fuel bounds the number of scan steps; each step consumes at
least one character, so fuel equal to the text length suffices. -/
def countTokenAux (token : List Char) : Nat → Option Char → List Char → Nat
  | _, _, [] => 0
  | 0, _, _ :: _ => 0
  | fuel + 1, prev, c :: rest =>
    if tokenMatchHere prev (c :: rest) token && !token.isEmpty then
      1 + countTokenAux token fuel token.getLast? ((c :: rest).drop token.length)
    else countTokenAux token fuel (some c) rest

/-- Count the word-boundary-delimited occurrences of `token` in `text`,
modelling the per-token regex count of `src/unnamed/part_003` lines 9-12. -/
def countToken (text token : List Char) : Nat :=
  countTokenAux token text.length none text

/-- The filler-word list from `src/unnamed/part_003` line 4. -/
def fillerTokens : List (List Char) :=
  [("um".toList), ("uh".toList), ("like".toList), ("you know".toList),
   ("sort of".toList), ("kinda".toList)]

/-- The feedback record computed by `analyzeAnswers`; JavaScript numbers are
embedded as rationals so that the division by 6 is exact. -/
structure Insights where
  clarityScore : ℚ
  relevanceScore : ℚ
  confidenceScore : ℚ
  fillerCount : Nat
  pace : List Char
  wordCount : Nat

/-- Function `analyzeAnswers` from `src/unnamed/part_003` lines 6-26: join the
answers with spaces, count words and filler tokens, and compute the three
clamped scores and the pace label. -/
def analyzeAnswers (answers : List QA) : Insights :=
  let text := List.intercalate (" ".toList) (answers.map QA.answer)
  let wordCount := countWords text
  let fillerCount := fillerTokens.foldl
    (fun acc tok => acc + countToken (lowerList text) tok) 0
  let clarityScore : ℚ := max 55 (min 95 (100 - (fillerCount : ℚ) * 2))
  let relevanceScore : ℚ := min 95 (60 + min ((answers.length : ℚ) * 8) 30)
  let confidenceScore : ℚ := min 95 (65 + min ((wordCount : ℚ) / 6) 30)
  let pace :=
    if 220 < wordCount then "Slightly fast".toList
    else if wordCount < 120 then "Calm".toList
    else "Balanced".toList
  { clarityScore := clarityScore
    relevanceScore := relevanceScore
    confidenceScore := confidenceScore
    fillerCount := fillerCount
    pace := pace
    wordCount := wordCount }

/-- Kinds of entries in the conversation history maintained by the
interview page of `src/unnamed/part_001`. -/
inductive ItemType
  | question
  | answer
  | complete
deriving DecidableEq

/-- One entry of the conversation history of `src/unnamed/part_001`. -/
structure HistoryItem where
  type : ItemType
  content : List Char
  number : Option Nat
deriving DecidableEq

/-- The payload of a successful backend reply to the next-question request,
as read by `handleSubmitAnswer` in `src/unnamed/part_001`. -/
structure SubmitResponse where
  is_complete : Bool
  question : List Char
  question_number : Nat
deriving DecidableEq

/-- The component state touched by `handleSubmitAnswer` in
`src/unnamed/part_001`. -/
structure ChatState where
  userAnswer : List Char
  conversationHistory : List HistoryItem
  loading : Bool
  error : Option (List Char)
  isComplete : Bool
  questionNumber : Nat
deriving DecidableEq

/-- The error message shown for a blank answer,
`src/unnamed/part_001` line 117. -/
def emptyAnswerMessage : List Char :=
  "Please provide an answer".toList

/-- The completion banner text, `src/unnamed/part_001` line 141. -/
def completionMessage : List Char :=
  "Interview completed! Great job!".toList

/-- Handler `handleSubmitAnswer` from `src/unnamed/part_001` lines 115-163 as a
state transition.  The backend call is passed in as an `Except` outcome:
an error value models a rejected or failed request.  A blank answer is
rejected before any state other than the error banner is touched;
otherwise the answer is appended to the history and the backend outcome is
applied. -/
def handleSubmitAnswer (api : Except (List Char) SubmitResponse)
    (s : ChatState) : ChatState :=
  if (trim s.userAnswer).isEmpty then
    { s with error := some emptyAnswerMessage }
  else
    let s1 : ChatState :=
      { s with
        loading := true
        error := none
        conversationHistory := s.conversationHistory ++
          [{ type := ItemType.answer, content := s.userAnswer,
             number := some s.questionNumber }] }
    match api with
    | Except.error msg => { s1 with error := some msg, loading := false }
    | Except.ok r =>
      if r.is_complete then
        { s1 with
          isComplete := true
          conversationHistory := s1.conversationHistory ++
            [{ type := ItemType.complete, content := completionMessage,
               number := none }]
          userAnswer := []
          loading := false }
      else
        { s1 with
          questionNumber := r.question_number
          conversationHistory := s1.conversationHistory ++
            [{ type := ItemType.question, content := r.question,
               number := some r.question_number }]
          userAnswer := []
          loading := false }

/-- The job-context state from `src/unnamed/part_007` lines 46-58: file
metadata plus the cleaned extracted text. -/
structure JobState where
  name : Option (List Char)
  size : Nat
  extractedText : List Char
deriving DecidableEq

/-- Function `saveExtraction` from `src/unnamed/part_007` lines 50-53. -/
def saveExtraction (name : List Char) (size : Nat) (text : List Char) :
    JobState :=
  { name := some name, size := size, extractedText := cleanText text }

/-- Function `clearJob` from `src/unnamed/part_007` lines 55-58. -/
def clearJob : JobState :=
  { name := none, size := 0, extractedText := [] }

/-- The component state touched by `handleFileObject` in
`src/frontend/src/pages/upload_jd_page.js`. -/
structure UploadView where
  fileName : Option (List Char)
  fileSize : Nat
  error : Option (List Char)
  preview : List Char
  extracting : Bool
  job : JobState
deriving DecidableEq

/-- The rejection message for a blank extraction,
`src/frontend/src/pages/upload_jd_page.js` line 73. -/
def emptyInputMessage : List Char :=
  "Could not extract text. Try a different file.".toList

/-- Handler `handleFileObject` from `src/frontend/src/pages/upload_jd_page.js`
lines 65-84 as a state transition.  The asynchronous `readFile` outcome is
passed in as an `Except`: an error value models an unsupported format or a
failed extraction.  A successful extraction whose text is blank is turned
into the empty-input rejection; every rejection clears the job context so
no job state is created from the document. -/
def handleFileObject (extraction : Except (List Char) (List Char))
    (name : List Char) (size : Nat) (_s : UploadView) : UploadView :=
  match extraction with
  | Except.error msg =>
    { fileName := some name, fileSize := size, error := some msg,
      preview := [], extracting := false, job := clearJob }
  | Except.ok text =>
    if (trim text).isEmpty then
      { fileName := some name, fileSize := size,
        error := some emptyInputMessage, preview := [],
        extracting := false, job := clearJob }
    else
      { fileName := some name, fileSize := size, error := none,
        preview := text.take 600, extracting := false,
        job := saveExtraction name size text }

/-- The routes of the frontend router (`src/unnamed/part_007` lines
90-99). -/
inductive VRoute
  | home
  | interview
  | feedback
deriving DecidableEq

/-- The component state touched by `goNext` in the voice interview page
`src/unnamed/part_002`. -/
structure VoiceState where
  qIndex : Nat
  transcript : List Char
  answers : List QA
  route : VRoute
deriving DecidableEq

/-- The fallback question of `src/unnamed/part_002` line 20. -/
def fallbackQuestion : List Char :=
  "Tell me about yourself and your key strengths.".toList

/-- Function `activeQuestion` from `src/unnamed/part_002` line 20: the question at
the current index, or the fallback when the index is out of range or the
entry is falsy (the empty string). -/
def activeQuestion (questions : List (List Char)) (i : Nat) : List Char :=
  match questions.get? i with
  | some q => if q.isEmpty then fallbackQuestion else q
  | none => fallbackQuestion

/-- Handler `goNext` from `src/unnamed/part_002` lines 78-85 as a state transition:
capture a pending transcript as an answer, clear the transcript, then
either advance to the next question or navigate to the feedback page when
the current question was the last one. -/
def goNext (questions : List (List Char)) (s : VoiceState) : VoiceState :=
  let latest :=
    if s.transcript.isEmpty then s.answers
    else s.answers ++ [{ question := activeQuestion questions s.qIndex,
                         answer := s.transcript }]
  if s.qIndex < questions.length - 1 then
    { s with answers := latest, transcript := [], qIndex := s.qIndex + 1 }
  else
    { s with answers := latest, transcript := [], route := VRoute.feedback }

/-- The browser-visible state touched by `handleEndInterview` in
`src/unnamed/part_001` lines 165-170: the stored session id and the
current route. -/
structure EndView where
  storedSession : Option (List Char)
  route : VRoute
deriving DecidableEq

/-- Handler `handleEndInterview` from `src/unnamed/part_001` lines 165-170: when
the user confirms, remove the stored session id and navigate to the
feedback page; otherwise leave everything unchanged. -/
def handleEndInterview (confirmed : Bool) (s : EndView) : EndView :=
  if confirmed then { storedSession := none, route := VRoute.feedback }
  else s

/-- Modelled from the spec: the session status values of the Interview
Engine state machine (spec section 4.5); the engine implementation is not
among the checked-in sources. -/
inductive Status
  | INIT
  | IN_PROGRESS
  | COMPLETED
  | TERMINATED
deriving DecidableEq

/-- Modelled from the spec: the role of one conversation turn (spec
section 3); the engine implementation is not among the checked-in
sources.  Timestamps are outside the embedding. -/
inductive Role
  | question
  | answer
deriving DecidableEq

/-- Modelled from the spec: one conversation turn with its ordinal (spec
section 3). -/
structure Turn where
  ordinal : Nat
  role : Role
  text : List Char
deriving DecidableEq

/-- Modelled from the spec: the per-interview session record (spec
section 3); the engine implementation is not among the checked-in
sources. -/
structure Session where
  history : List Turn
  question_count : Nat
  max_questions : Nat
  status : Status
deriving DecidableEq

/-- Modelled from the spec: the outcome returned by `submit_answer` (spec
sections 4.5 and 6). -/
inductive SubmitOutcome
  | emptyAnswer
  | invalidState
  | completion
  | nextQuestion (q : List Char)
deriving DecidableEq

/-- Modelled from the spec: `submit_answer` of the Interview Engine (spec
section 4.5), whose implementation is not among the checked-in sources.
It requires an in-progress session, rejects a blank answer before any
mutation, appends the answer turn, completes the session when the question
budget is reached, and otherwise generates and appends the next question.
The generation provider is the function argument and the returned number
counts how many times it was invoked during the call. -/
def submit_answer (generate : List Turn → List Char) (s : Session)
    (ans : List Char) : Session × SubmitOutcome × Nat :=
  if s.status = Status.IN_PROGRESS then
    if (trim ans).isEmpty then (s, SubmitOutcome.emptyAnswer, 0)
    else
      let s1 : Session :=
        { s with history := s.history ++
            [{ ordinal := s.history.length, role := Role.answer, text := ans }] }
      if s1.question_count = s1.max_questions then
        ({ s1 with status := Status.COMPLETED }, SubmitOutcome.completion, 0)
      else
        let q := generate s1.history
        ({ s1 with
            history := s1.history ++
              [{ ordinal := s1.history.length, role := Role.question, text := q }]
            question_count := s1.question_count + 1 },
         SubmitOutcome.nextQuestion q, 1)
  else (s, SubmitOutcome.invalidState, 0)

/-- Modelled from the spec: `end(session)` of the Interview Engine (spec
section 4.5), whose implementation is not among the checked-in sources.
It transitions the session to TERMINATED; a second call is a no-op rather
than an error. -/
def end_session (s : Session) : Session :=
  { s with status := Status.TERMINATED }

/-- Modelled from the spec: the error raised by the chunker on blank input
(spec section 4.1); the chunker implementation is not among the checked-in
sources. -/
inductive ChunkError
  | EmptyInputError
deriving DecidableEq

/-- Modelled from the spec: the chunk record (spec section 3). -/
structure Chunk where
  id : Nat
  text : List Char
  start_offset : Nat
  end_offset : Nat
deriving DecidableEq

/-- Modelled from the spec: the sliding-window splitting of the chunker
(spec section 4.1), whose implementation is not among the checked-in
sources.  Each piece carries its start offset; after a full-size piece the
window advances by `size - overlap`.  The fuel bounds the number of
splitting steps; each step consumes at least one character when
`overlap < size`, so fuel equal to the text length suffices.  The
degenerate configuration `size ≤ overlap` stops immediately. -/
def chunkPiecesAux (size overlap : Nat) :
    Nat → Nat → List Char → List (Nat × List Char)
  | 0, start, text => [(start, text)]
  | fuel + 1, start, text =>
    if size ≤ overlap ∨ text.length ≤ size then [(start, text)]
    else (start, text.take size) ::
      chunkPiecesAux size overlap fuel (start + (size - overlap))
        (text.drop (size - overlap))

/-- Modelled from the spec: the offset/text pieces of the sliding window
over the whole text (spec section 4.1). -/
def chunkPieces (size overlap : Nat) (text : List Char) :
    List (Nat × List Char) :=
  chunkPiecesAux size overlap text.length 0 text

/-- Modelled from the spec: assign ordinal ids and offsets to the pieces,
producing chunk records (spec section 3). -/
def toChunks (idx : Nat) : List (Nat × List Char) → List Chunk
  | [] => []
  | p :: rest =>
    { id := idx, text := p.2, start_offset := p.1,
      end_offset := p.1 + p.2.length } :: toChunks (idx + 1) rest

/-- Modelled from the spec: `chunk(text, size, overlap)` (spec section
4.1), whose implementation is not among the checked-in sources.  It fails
with `EmptyInputError` on empty or whitespace-only text and otherwise
returns the chunk records of the sliding window. -/
def chunk (text : List Char) (size overlap : Nat) :
    Except ChunkError (List Chunk) :=
  if (trim text).isEmpty then Except.error ChunkError.EmptyInputError
  else Except.ok (toChunks 0 (chunkPieces size overlap text))

/-- Concatenate the first chunk text with the non-overlapping portion
(everything past the first `overlap` characters) of every later chunk
text. -/
def reconstruct (overlap : Nat) : List Chunk → List Char
  | [] => []
  | c :: rest => c.text ++ (rest.map fun d => d.text.drop overlap).flatten

/-- Consecutive chunks overlap by exactly `ov` characters: both texts are
at least `ov` long and the first `ov` characters of the later chunk are
the last `ov` characters of the earlier one. -/
def overlapsBy (ov : Nat) (a b : Chunk) : Prop :=
  ov ≤ a.text.length ∧ ov ≤ b.text.length ∧
    b.text.take ov = a.text.drop (a.text.length - ov)

/-- The overlap relation on raw offset/text pieces, used to transport the
chain property through `toChunks`. -/
def pieceOverlap (ov : Nat) (a b : Nat × List Char) : Prop :=
  ov ≤ a.2.length ∧ ov ≤ b.2.length ∧
    b.2.take ov = a.2.drop (a.2.length - ov)

/-- The non-overlapping portions of a list of offset/text pieces,
concatenated. -/
def dropGlue (ov : Nat) (l : List (Nat × List Char)) : List Char :=
  (l.map fun p => p.2.drop ov).flatten

/-- Reconstruction at the level of offset/text pieces: the first piece
followed by the non-overlapping portions of the later pieces. -/
def pieceReconstruct (ov : Nat) : List (Nat × List Char) → List Char
  | [] => []
  | p :: rest => p.2 ++ dropGlue ov rest

end InterviewBot

namespace InterviewBot

/-- C4: question derivation is deterministic — two runs on equal extracted
texts produce identical question lists; the embedded `deriveQuestions` is
a pure function of the text, with no hidden source of randomness. -/
theorem deriveQuestions_deterministic (t₁ t₂ : List Char) (h : t₁ = t₂) :
    deriveQuestions t₁ = deriveQuestions t₂ := by
  rw [h]

theorem deriveQuestions_deterministic_witness :
    deriveQuestions ("We want react developers".toList) =
      deriveQuestions ("We want react developers".toList) :=
  deriveQuestions_deterministic _ _ rfl

/-- C5: ending a session is idempotent — the spec-modelled engine `end`
always yields a TERMINATED session and applying it twice equals applying
it once, and the frontend `handleEndInterview` applied twice with the same
confirmation equals applying it once. -/
theorem end_session_idempotent :
    (∀ s : Session, (end_session s).status = Status.TERMINATED ∧
      end_session (end_session s) = end_session s) ∧
    (∀ (c : Bool) (v : EndView),
      handleEndInterview c (handleEndInterview c v) = handleEndInterview c v) := by
  constructor
  · intro s; exact ⟨rfl, rfl⟩
  · intro c v
    cases c <;> simp [handleEndInterview]

/-- C9: `summarize` returns the empty string when the cleaned text is
empty, the cleaned text itself when it is at most 420 characters long, and
otherwise its first 420 characters followed by three dots; the result
never exceeds 423 characters. -/
theorem summarize_cases (text : List Char) :
    (cleanText text = [] → summarize text = []) ∧
    (cleanText text ≠ [] → (cleanText text).length ≤ 420 →
      summarize text = cleanText text) ∧
    (420 < (cleanText text).length →
      summarize text = (cleanText text).take 420 ++ ("...".toList)) ∧
    (summarize text).length ≤ 423 := by
  refine ⟨?_, ?_, ?_, ?_⟩
  · intro h
    simp [summarize, h]
  · intro hne hle
    simp [summarize, List.isEmpty_iff, hne, hle]
  · intro hgt
    have hne : cleanText text ≠ [] := by
      intro h
      rw [h] at hgt
      simp at hgt
    have hnle : ¬ (cleanText text).length ≤ 420 := by omega
    simp [summarize, List.isEmpty_iff, hne, hnle]
  · by_cases he : cleanText text = []
    · simp [summarize, he]
    · by_cases hle : (cleanText text).length ≤ 420
      · simp [summarize, List.isEmpty_iff, he, hle]
        omega
      · simp [summarize, List.isEmpty_iff, he, hle]

theorem summarize_cases_witness :
    summarize (" ".toList) = [] ∧
    summarize ("hi there".toList) = cleanText ("hi there".toList) := by
  constructor
  · exact (summarize_cases (" ".toList)).1 (by decide)
  · exact (summarize_cases ("hi there".toList)).2.1 (by decide) (by decide)

/-- C1: a blank (empty or whitespace-only) answer is rejected by
`handleSubmitAnswer` before any mutation — the resulting state is the old
state with only the error banner set to the blank-answer rejection, so in
particular the conversation history is exactly as it was. -/
theorem handleSubmitAnswer_blank (api : Except (List Char) SubmitResponse)
    (s : ChatState) (h : (trim s.userAnswer).isEmpty = true) :
    handleSubmitAnswer api s = { s with error := some emptyAnswerMessage } ∧
    (handleSubmitAnswer api s).conversationHistory = s.conversationHistory := by
  constructor
  · simp [handleSubmitAnswer, h]
  · simp [handleSubmitAnswer, h]

theorem handleSubmitAnswer_blank_witness :
    handleSubmitAnswer
      (Except.ok { is_complete := false, question := "next".toList, question_number := 3 })
      { userAnswer := "  ".toList
        conversationHistory := [{ type := ItemType.question, content := "q1".toList, number := some 1 }]
        loading := false
        error := none
        isComplete := false
        questionNumber := 1 } =
      { userAnswer := "  ".toList
        conversationHistory := [{ type := ItemType.question, content := "q1".toList, number := some 1 }]
        loading := false
        error := some emptyAnswerMessage
        isComplete := false
        questionNumber := 1 } :=
  (handleSubmitAnswer_blank _ _ (by decide)).1

/-- C3: an upload whose extracted text is blank (empty or whitespace-only)
is rejected by `handleFileObject` with the empty-input message, the
preview is cleared, and the job context is cleared — no job state is
created from that document. -/
theorem handleFileObject_blank (name : List Char) (size : Nat)
    (s : UploadView) (text : List Char)
    (h : (trim text).isEmpty = true) :
    (handleFileObject (Except.ok text) name size s).error =
      some emptyInputMessage ∧
    (handleFileObject (Except.ok text) name size s).job = clearJob ∧
    (handleFileObject (Except.ok text) name size s).preview = [] := by
  refine ⟨?_, ?_, ?_⟩ <;> simp [handleFileObject, h]

theorem handleFileObject_blank_witness :
    (handleFileObject (Except.ok ("   ".toList)) ("jd.txt".toList) 3
      { fileName := none, fileSize := 0, error := none, preview := [],
        extracting := true, job := clearJob }).job = clearJob :=
  (handleFileObject_blank ("jd.txt".toList) 3 _ ("   ".toList)
    (by decide)).2.1

/-- C10: the three scores computed by `analyzeAnswers` are clamped into
fixed ranges for every list of answers: clarity into `[55, 95]`, relevance
into `[60, 90]` and confidence into `[65, 95]`. -/
theorem analyzeAnswers_score_bounds (answers : List QA) :
    55 ≤ (analyzeAnswers answers).clarityScore ∧
    (analyzeAnswers answers).clarityScore ≤ 95 ∧
    60 ≤ (analyzeAnswers answers).relevanceScore ∧
    (analyzeAnswers answers).relevanceScore ≤ 90 ∧
    65 ≤ (analyzeAnswers answers).confidenceScore ∧
    (analyzeAnswers answers).confidenceScore ≤ 95 := by
  simp only [analyzeAnswers]
  refine ⟨le_max_left _ _, max_le (by norm_num) (min_le_left _ _), ?_, ?_, ?_,
    min_le_left _ _⟩
  · refine le_min (by norm_num) ?_
    have h : (0 : ℚ) ≤ min ((answers.length : ℚ) * 8) 30 :=
      le_min (by positivity) (by norm_num)
    linarith
  · have h := min_le_right ((answers.length : ℚ) * 8) 30
    have h2 := min_le_right (95 : ℚ) (60 + min ((answers.length : ℚ) * 8) 30)
    linarith
  · refine le_min (by norm_num) ?_
    have h : (0 : ℚ) ≤ min
        ((countWords (List.intercalate (" ".toList) (answers.map QA.answer)) : ℚ) / 6) 30 :=
      le_min (by positivity) (by norm_num)
    linarith

/-- C2: for a spec-modelled in-progress session whose question count is
within the budget, `submit_answer` keeps the count within the budget, and
when the count has already reached the budget a valid answer completes the
session, returns the completion outcome and performs no generation call. -/
theorem submit_answer_budget (generate : List Turn → List Char)
    (s : Session) (ans : List Char)
    (hst : s.status = Status.IN_PROGRESS)
    (hle : s.question_count ≤ s.max_questions) :
    (submit_answer generate s ans).1.question_count ≤
      (submit_answer generate s ans).1.max_questions ∧
    (s.question_count = s.max_questions → (trim ans).isEmpty = false →
      (submit_answer generate s ans).1.status = Status.COMPLETED ∧
      (submit_answer generate s ans).2.1 = SubmitOutcome.completion ∧
      (submit_answer generate s ans).2.2 = 0) := by
  by_cases hb : (trim ans).isEmpty
  · simp [submit_answer, hst, hb]
    exact hle
  · by_cases hq : s.question_count = s.max_questions
    · simp [submit_answer, hst, hb, hq]
    · simp [submit_answer, hst, hb, hq]
      omega

theorem submit_answer_budget_witness :
    (submit_answer (fun _ => "next".toList)
        { history := [], question_count := 2, max_questions := 2,
          status := Status.IN_PROGRESS } ("fine".toList)).1.status =
      Status.COMPLETED ∧
    (submit_answer (fun _ => "next".toList)
        { history := [], question_count := 2, max_questions := 2,
          status := Status.IN_PROGRESS } ("fine".toList)).2.2 = 0 := by
  have h := submit_answer_budget (fun _ => "next".toList)
    { history := [], question_count := 2, max_questions := 2,
      status := Status.IN_PROGRESS } ("fine".toList) rfl (by decide)
  exact ⟨(h.2 rfl (by decide)).1, (h.2 rfl (by decide)).2.2⟩

/-- Every step of `addIfAbsent` only appends to the accumulator. -/
theorem addIfAbsent_extends (l : List (List Char)) (x : List Char) :
    ∃ t, addIfAbsent l x = l ++ t := by
  unfold addIfAbsent
  split
  · exact ⟨[], by simp⟩
  · exact ⟨[x], rfl⟩

/-- A fold whose step only appends to the accumulator only appends to the
initial accumulator. -/
theorem foldl_extends {β : Type} (f : List (List Char) → β → List (List Char))
    (hf : ∀ acc b, ∃ t, f acc b = acc ++ t) :
    ∀ (l : List β) (acc : List (List Char)), ∃ t, l.foldl f acc = acc ++ t := by
  intro l
  induction l with
  | nil => intro acc; exact ⟨[], by simp⟩
  | cons b l ih =>
    intro acc
    obtain ⟨t1, h1⟩ := hf acc b
    obtain ⟨t2, h2⟩ := ih (f acc b)
    refine ⟨t1 ++ t2, ?_⟩
    rw [List.foldl_cons, h2, h1, List.append_assoc]

/-- Function `addIfAbsent` preserves the absence of duplicates. -/
theorem addIfAbsent_nodup (l : List (List Char)) (x : List Char)
    (h : l.Nodup) : (addIfAbsent l x).Nodup := by
  unfold addIfAbsent
  split
  · exact h
  · next hx =>
    simp [List.nodup_append, h, List.Disjoint]
    intro a ha hax
    exact hx (hax ▸ ha)

/-- A fold whose step preserves the absence of duplicates preserves it
from the initial accumulator. -/
theorem foldl_nodup {β : Type} (f : List (List Char) → β → List (List Char))
    (hf : ∀ acc b, acc.Nodup → (f acc b).Nodup) :
    ∀ (l : List β) (acc : List (List Char)), acc.Nodup → (l.foldl f acc).Nodup := by
  intro l
  induction l with
  | nil => intro acc h; exact h
  | cons b l ih =>
    intro acc h
    rw [List.foldl_cons]
    exact ih (f acc b) (hf acc b h)

/-- Seeding the set with the three base questions yields exactly the base
questions, in order. -/
theorem foldl_baseQuestions : baseQuestions.foldl addIfAbsent [] = baseQuestions := by
  decide

/-- C8: for every input text `deriveQuestions` returns between 3 and 8
questions, without duplicates, and its first three entries are always the
three fixed base questions. -/
theorem deriveQuestions_bounds (text : List Char) :
    (deriveQuestions text).take 3 = baseQuestions ∧
    3 ≤ (deriveQuestions text).length ∧
    (deriveQuestions text).length ≤ 8 ∧
    (deriveQuestions text).Nodup := by
  have hstep : ∀ (acc : List (List Char)) (kp : List Char × List Char),
      ∃ t, (if includesSub kp.1 (lowerList (cleanText text)) then
        addIfAbsent acc kp.2 else acc) = acc ++ t := by
    intro acc kp
    split
    · exact addIfAbsent_extends acc kp.2
    · exact ⟨[], by simp⟩
  have hstepnd : ∀ (acc : List (List Char)) (kp : List Char × List Char),
      acc.Nodup → (if includesSub kp.1 (lowerList (cleanText text)) then
        addIfAbsent acc kp.2 else acc).Nodup := by
    intro acc kp h
    split
    · exact addIfAbsent_nodup acc kp.2 h
    · exact h
  obtain ⟨t1, ht1⟩ := foldl_extends _ hstep keywordQuestions baseQuestions
  have hnd1 : (keywordQuestions.foldl
      (fun acc kp => if includesSub kp.1 (lowerList (cleanText text)) then
        addIfAbsent acc kp.2 else acc) baseQuestions).Nodup :=
    foldl_nodup _ hstepnd keywordQuestions baseQuestions (by decide)
  have hmain : ∃ t, deriveQuestions text = (baseQuestions ++ t).take 8 ∧
      (baseQuestions ++ t).Nodup := by
    simp only [deriveQuestions]
    rw [foldl_baseQuestions]
    split
    · obtain ⟨t2, ht2⟩ := addIfAbsent_extends
        (keywordQuestions.foldl
          (fun acc kp => if includesSub kp.1 (lowerList (cleanText text)) then
            addIfAbsent acc kp.2 else acc) baseQuestions) stakeholderQuestion
      refine ⟨t1 ++ t2, ?_, ?_⟩
      · rw [ht2, ht1, List.append_assoc]
      · rw [← List.append_assoc, ← ht1, ← ht2]
        exact addIfAbsent_nodup _ _ hnd1
    · refine ⟨t1, ?_, ?_⟩
      · rw [ht1]
      · rw [← ht1]; exact hnd1
  obtain ⟨t, hq, hnd⟩ := hmain
  refine ⟨?_, ?_, ?_, ?_⟩
  · rw [hq, List.take_take]
    have h3 : (3 : Nat) ⊓ 8 = 3 := by norm_num
    rw [h3]
    exact List.take_left' rfl
  · rw [hq, List.length_take]
    simp [baseQuestions]
  · rw [hq, List.length_take]
    omega
  · rw [hq]
    exact hnd.sublist (List.take_sublist 8 _)

/-- The non-overlapping glue of a singleton piece list. -/
theorem dropGlue_singleton (ov start : Nat) (text : List Char) :
    dropGlue ov [(start, text)] = text.drop ov := by
  simp [dropGlue]

/-- The non-overlapping glue of a piece cons cell. -/
theorem dropGlue_cons (ov : Nat) (p : Nat × List Char)
    (l : List (Nat × List Char)) :
    dropGlue ov (p :: l) = p.2.drop ov ++ dropGlue ov l := by
  simp [dropGlue]

/-- Dropping the overlap from every piece of the sliding window and
concatenating yields the text with its first `ov` characters removed. -/
theorem chunkPiecesAux_dropGlue (size ov : Nat) (hov : ov < size) :
    ∀ (fuel start : Nat) (text : List Char), text.length ≤ size + fuel →
      dropGlue ov (chunkPiecesAux size ov fuel start text) = text.drop ov := by
  intro fuel
  induction fuel with
  | zero =>
    intro start text _
    simp [chunkPiecesAux, dropGlue]
  | succ fuel ih =>
    intro start text hlen
    by_cases hc : text.length ≤ size
    · simp only [chunkPiecesAux]
      rw [if_pos (Or.inr hc)]
      exact dropGlue_singleton ov start text
    · have hcond : ¬ (size ≤ ov ∨ text.length ≤ size) := by omega
      simp only [chunkPiecesAux]
      rw [if_neg hcond, dropGlue_cons]
      have hrec := ih (start + (size - ov)) (text.drop (size - ov))
        (by simp [List.length_drop]; omega)
      rw [hrec, List.drop_drop]
      have hsz : size - ov + ov = size := by omega
      rw [hsz]
      conv_rhs => rw [← List.take_append_drop size text]
      have hlen2 : ov ≤ (text.take size).length := by
        simp [List.length_take]
        omega
      rw [List.drop_append_of_le_length hlen2]

/-- Gluing the first piece with the non-overlapping portions of the later
pieces reconstructs the text split by the sliding window. -/
theorem chunkPiecesAux_glue (size ov : Nat) (hov : ov < size)
    (fuel start : Nat) (text : List Char) (hlen : text.length ≤ size + fuel) :
    pieceReconstruct ov (chunkPiecesAux size ov fuel start text) = text := by
  cases fuel with
  | zero => simp [chunkPiecesAux, pieceReconstruct, dropGlue]
  | succ fuel =>
    by_cases hc : text.length ≤ size
    · simp only [chunkPiecesAux]
      rw [if_pos (Or.inr hc)]
      simp [pieceReconstruct, dropGlue]
    · have hcond : ¬ (size ≤ ov ∨ text.length ≤ size) := by omega
      simp only [chunkPiecesAux]
      rw [if_neg hcond]
      show text.take size ++ dropGlue ov _ = text
      rw [chunkPiecesAux_dropGlue size ov hov fuel _ _
        (by simp [List.length_drop]; omega)]
      rw [List.drop_drop]
      have hsz : size - ov + ov = size := by omega
      rw [hsz, List.take_append_drop]

/-- Shape of the sliding window output: it always starts with a piece at
the requested offset whose text agrees with the input on the first `ov`
characters and is no longer than the input. -/
theorem chunkPiecesAux_shape (size ov fuel start : Nat) (text : List Char) :
    ∃ t rest, chunkPiecesAux size ov fuel start text = (start, t) :: rest ∧
      t.take ov = text.take ov ∧
      (ov ≤ size → ov ≤ text.length → ov ≤ t.length) := by
  cases fuel with
  | zero => exact ⟨text, [], rfl, rfl, fun _ h => h⟩
  | succ fuel =>
    by_cases hcond : size ≤ ov ∨ text.length ≤ size
    · refine ⟨text, [], ?_, rfl, fun _ h => h⟩
      simp only [chunkPiecesAux]
      rw [if_pos hcond]
    · refine ⟨text.take size,
        chunkPiecesAux size ov fuel (start + (size - ov)) (text.drop (size - ov)),
        ?_, ?_, ?_⟩
      · simp only [chunkPiecesAux]
        rw [if_neg hcond]
      · rw [List.take_take]
        have hmin : ov ⊓ size = ov := inf_eq_left.mpr (by omega)
        rw [hmin]
      · intro _ _
        simp [List.length_take]
        omega

/-- Consecutive pieces of the sliding window overlap by exactly `ov`
characters. -/
theorem chunkPiecesAux_chain (size ov : Nat) (hov : ov < size) :
    ∀ (fuel start : Nat) (text : List Char),
      List.Chain' (pieceOverlap ov) (chunkPiecesAux size ov fuel start text) := by
  intro fuel
  induction fuel with
  | zero => intro start text; simp [chunkPiecesAux]
  | succ fuel ih =>
    intro start text
    by_cases hcond : size ≤ ov ∨ text.length ≤ size
    · simp only [chunkPiecesAux]
      rw [if_pos hcond]
      simp
    · have hlen : size < text.length := by omega
      simp only [chunkPiecesAux]
      rw [if_neg hcond]
      obtain ⟨t, rest, heq, htake, hovlen⟩ :=
        chunkPiecesAux_shape size ov fuel (start + (size - ov)) (text.drop (size - ov))
      rw [heq, List.chain'_cons]
      constructor
      · refine ⟨?_, ?_, ?_⟩
        · simp [List.length_take]
          omega
        · apply hovlen (le_of_lt hov)
          simp [List.length_drop]
          omega
        · rw [htake]
          have hlt : (text.take size).length = size := by
            simp [List.length_take]
            omega
          show (text.drop (size - ov)).take ov =
            (text.take size).drop ((text.take size).length - ov)
          rw [hlt, List.drop_take]
          have hd : size - (size - ov) = ov := by omega
          rw [hd]
      · rw [← heq]
        exact ih _ _

/-- Mapping the text projection (with an overlap drop) through `toChunks`
recovers the same map over the raw pieces. -/
theorem toChunks_map_drop (ov : Nat) :
    ∀ (i : Nat) (l : List (Nat × List Char)),
      (toChunks i l).map (fun d => d.text.drop ov) =
        l.map (fun p => p.2.drop ov) := by
  intro i l
  induction l generalizing i with
  | nil => rfl
  | cons p rest ih => simp [toChunks, ih]

/-- Reconstruction commutes with the id/offset decoration of `toChunks`. -/
theorem toChunks_reconstruct (ov i : Nat) (l : List (Nat × List Char)) :
    reconstruct ov (toChunks i l) = pieceReconstruct ov l := by
  cases l with
  | nil => rfl
  | cons p rest =>
    simp [toChunks, reconstruct, pieceReconstruct, dropGlue, toChunks_map_drop]

/-- The overlap chain transports through the id/offset decoration of
`toChunks`. -/
theorem toChunks_chain (ov : Nat) :
    ∀ (i : Nat) (l : List (Nat × List Char)),
      List.Chain' (pieceOverlap ov) l →
      List.Chain' (overlapsBy ov) (toChunks i l) := by
  intro i l
  induction l generalizing i with
  | nil => intro _; simp [toChunks]
  | cons p rest ih =>
    intro h
    cases rest with
    | nil => simp [toChunks]
    | cons q rest2 =>
      rw [List.chain'_cons] at h
      simp only [toChunks]
      rw [List.chain'_cons]
      exact ⟨⟨h.1.1, h.1.2.1, h.1.2.2⟩, ih (i + 1) h.2⟩

/-- C6 counterexample: the single-space text is non-empty and no longer
than the chunk size, yet the spec-modelled `chunk` produces no chunk at
all — it rejects the whitespace-only text with `EmptyInputError`, so the
claim quantified over all non-empty texts fails at this input. -/
theorem chunk_space_rejected :
    (' ' :: []) ≠ ([] : List Char) ∧ (' ' :: []).length ≤ 500 ∧
    chunk (' ' :: []) 500 100 = Except.error ChunkError.EmptyInputError :=
  ⟨by decide, by decide, rfl⟩

/-- C6 (amended): for every text containing at least one non-whitespace
character and no longer than the chunk size, `chunk` produces exactly one
chunk, which is the whole text at offset 0. -/
theorem chunk_single_of_short (text : List Char) (size ov : Nat)
    (hb : (trim text).isEmpty = false) (hlen : text.length ≤ size) :
    chunk text size ov =
      Except.ok [{ id := 0, text := text, start_offset := 0,
                   end_offset := text.length }] := by
  have hne : text ≠ [] := by
    intro h
    rw [h] at hb
    simp [trim] at hb
  simp only [chunk, hb]
  rw [if_neg (by simp)]
  unfold chunkPieces
  cases hL : text.length with
  | zero => exact absurd (List.length_eq_zero.mp hL) hne
  | succ n =>
    simp only [chunkPiecesAux]
    rw [if_pos (Or.inr (hL ▸ hlen))]
    simp [toChunks, hL]

theorem chunk_single_of_short_witness :
    chunk ("hello".toList) 500 100 =
      Except.ok [{ id := 0, text := "hello".toList, start_offset := 0,
                   end_offset := ("hello".toList).length }] :=
  chunk_single_of_short ("hello".toList) 500 100 (by decide) (by decide)

/-- C7 counterexample: the single-tab text has positive length, yet the
spec-modelled `chunk` rejects it with `EmptyInputError`, producing no
chunk texts whose portions could reconstruct it, so the claim quantified
over all texts of positive length fails at this input. -/
theorem chunk_tab_rejected :
    0 < ('\t' :: []).length ∧
    chunk ('\t' :: []) 500 100 = Except.error ChunkError.EmptyInputError :=
  ⟨by decide, rfl⟩

/-- C7 (amended): for every text containing at least one non-whitespace
character and every configuration with `overlap < size`, chunking
succeeds, concatenating the first chunk text with the non-overlapping
portions of the later chunk texts reconstructs the text exactly, and each
chunk after the first overlaps its predecessor by exactly `overlap`
characters. -/
theorem chunk_roundtrip (text : List Char) (size ov : Nat)
    (hov : ov < size) (hb : (trim text).isEmpty = false) :
    ∃ cs, chunk text size ov = Except.ok cs ∧
      reconstruct ov cs = text ∧
      List.Chain' (overlapsBy ov) cs := by
  refine ⟨toChunks 0 (chunkPieces size ov text), ?_, ?_, ?_⟩
  · simp only [chunk, hb]
    rw [if_neg (by simp)]
  · rw [toChunks_reconstruct]
    exact chunkPiecesAux_glue size ov hov text.length 0 text (Nat.le_add_left _ _)
  · exact toChunks_chain ov 0 _ (chunkPiecesAux_chain size ov hov text.length 0 text)

theorem chunk_roundtrip_witness :
    (1 < 3) ∧
    (∃ cs, chunk ("abcde".toList) 3 1 = Except.ok cs ∧
      reconstruct 1 cs = "abcde".toList ∧
      List.Chain' (overlapsBy 1) cs) :=
  ⟨by decide, chunk_roundtrip ("abcde".toList) 3 1 (by decide) (by decide)⟩

end InterviewBot
